import Mathlib

/-!
Shallow embedding of the ncspot MPRIS adapter (src/src/mpris.rs).

The playback engine (`Spotify`), the play queue (`Queue`), the saved-items
store (`Library`) and the content catalog (`spotify.api`) live outside this
module; they are modelled from the spec as operations on an explicit `World`
state that also records, in order, every call the handlers issue against
them (the `trace`).  The handler bodies themselves are translated directly
from `mpris.rs`.
-/

/-- Modelled from the spec: a track record (model/track.rs is outside this
module).  PlayableRef carries an optional stable id, a display title,
duration in milliseconds, an optional cover-art URL, an optional share URL,
album name, album artists, track artists, disc number and track number. -/
structure Track where
  id : Option String
  title : String
  album : Option String
  album_artists : List String
  artists : List String
  disc_number : Int
  track_number : Nat
  duration : Nat
  cover_url : Option String
  url : Option String
deriving DecidableEq, Repr

/-- Alias for the `Track` structure, usable where the bare name is shadowed. -/
abbrev TrackRecord := Track

/-- Modelled from the spec: a podcast episode record (model/episode.rs is
outside this module). -/
structure Episode where
  id : Option String
  name : String
  duration : Nat
  cover_url : Option String
  url : Option String
deriving DecidableEq, Repr

/-- Modelled from the spec: PlayableRef, the tagged union of the two content
types the queue can hold (model/playable.rs is outside this module). -/
inductive Playable where
  | Track (t : Track)
  | Episode (e : Episode)
deriving DecidableEq, Repr

def Playable.id : Playable → Option String
  | .Track t => t.id
  | .Episode e => e.id

/-- Modelled from the spec: the canonical `scheme:kind:id` URI of a playable. -/
def Playable.uri : Playable → String
  | .Track t => "spotify:track:" ++ t.id.getD ""
  | .Episode e => "spotify:episode:" ++ e.id.getD ""

def Playable.duration : Playable → Nat
  | .Track t => t.duration
  | .Episode e => e.duration

def Playable.cover_url : Playable → Option String
  | .Track t => t.cover_url
  | .Episode e => e.cover_url

def Playable.share_url : Playable → Option String
  | .Track t => t.url
  | .Episode e => e.url

/-- The `track()` accessor of a playable: the track record when it is one.
(`TrackRecord` abbreviates the top-level `Track` structure, which inside the
`Playable` namespace would otherwise resolve to the constructor.) -/
def Playable.track : Playable → Option TrackRecord
  | .Track t => some t
  | .Episode _ => none

/-- The repeat setting enum of the queue (variant names as matched in
property_loopstatus, mpris.rs lines 270-284). -/
inductive RepeatSetting where
  | None
  | RepeatTrack
  | RepeatPlaylist
deriving DecidableEq, Repr

/-- Modelled from the spec: the URI kind enum used by the resolver
(spotify.rs is outside this module). -/
inductive UriType where
  | Album
  | Track
  | Playlist
  | Show
  | Episode
  | Artist
deriving DecidableEq, Repr

/-- One call issued by a handler against the engine, the queue or the UI
event system, recorded in order of execution. -/
inductive Call where
  | queueClear
  | queueAppend (p : Playable)
  | queueAppendNext (ps : List Playable)
  | queuePlay (index : Nat) (shuffleQueue : Bool) (shufflePlay : Bool)
  | queuePrevious
  | queueNext (force : Bool)
  | engineSeek (positionMs : Nat)
  | engineSetVolume (v : Nat)
  | eventTrigger
deriving DecidableEq, Repr

/-- The externally owned state the adapter reads and mutates: the queue
(items, current index, shuffle, repeat), the engine (progress in
microseconds, volume on the u16 scale) and the trace of calls made. -/
structure World where
  queue : List Playable
  current : Option Nat
  shuffle : Bool
  repeatSetting : RepeatSetting
  progressMicros : Nat
  volume : Nat
  trace : List Call
deriving DecidableEq, Repr

/-- Modelled from the spec: `queue.clear()` empties the queue. -/
def World.queueClear (w : World) : World :=
  { w with queue := [], current := none, trace := w.trace ++ [Call.queueClear] }

/-- Modelled from the spec: `queue.append(p)` adds one item at the end. -/
def World.queueAppend (w : World) (p : Playable) : World :=
  { w with queue := w.queue ++ [p], trace := w.trace ++ [Call.queueAppend p] }

/-- Modelled from the spec: `queue.append_next(ps)` inserts the sequence to
play next (after the current item, at the end when there is none) and
returns the first inserted index. -/
def World.queueAppendNext (w : World) (ps : List Playable) : World × Nat :=
  let i := match w.current with
    | some c => c + 1
    | none => w.queue.length
  ({ w with queue := w.queue.take i ++ ps ++ w.queue.drop i,
            trace := w.trace ++ [Call.queueAppendNext ps] }, i)

/-- Modelled from the spec: `queue.play(index, shuffle, shuffle)` starts
playback at the given index. -/
def World.queuePlay (w : World) (index : Nat) (shuffleQueue shufflePlay : Bool) : World :=
  { w with current := some index, progressMicros := 0,
           trace := w.trace ++ [Call.queuePlay index shuffleQueue shufflePlay] }

/-- Modelled from the spec: `queue.previous()` moves to the previous queue
item. -/
def World.queuePrevious (w : World) : World :=
  { w with current := w.current.map (fun i => i - 1), progressMicros := 0,
           trace := w.trace ++ [Call.queuePrevious] }

/-- Modelled from the spec: `queue.next(true)` force-advances past the
current item. -/
def World.queueNext (w : World) (force : Bool) : World :=
  { w with current := w.current.map (fun i => i + 1), progressMicros := 0,
           trace := w.trace ++ [Call.queueNext force] }

/-- Modelled from the spec: `spotify.seek(ms)` moves the engine position to
the given absolute millisecond offset. -/
def World.engineSeek (w : World) (ms : Nat) : World :=
  { w with progressMicros := ms * 1000, trace := w.trace ++ [Call.engineSeek ms] }

/-- Modelled from the spec: `spotify.set_volume(v)` stores the new volume. -/
def World.engineSetVolume (w : World) (v : Nat) : World :=
  { w with volume := v, trace := w.trace ++ [Call.engineSetVolume v] }

/-- Modelled from the spec: `ev.trigger()` posts a UI redraw notification. -/
def World.eventTrigger (w : World) : World :=
  { w with trace := w.trace ++ [Call.eventTrigger] }

/-- Modelled from the spec: `queue.get_current()` returns the current
playable, when a current index exists and points into the queue. -/
def World.get_current (w : World) : Option Playable :=
  w.current.bind (fun i => w.queue.get? i)

/-- The Rust `as u32` cast of an `i64`: the low 32 bits, as an unsigned
value (wrapping, not clamping). -/
def castU32 (n : Int) : Nat :=
  (n % (2 ^ 32 : Int)).toNat

/-- The Rust `as i32` cast of a wider integer: the low 32 bits interpreted
in two's complement. -/
def castI32 (n : Int) : Int :=
  let m := n % (2 ^ 32 : Int)
  if m < 2 ^ 31 then m else m - 2 ^ 32

/-- `method_previous` (mpris.rs lines 489-500): under the five-second
threshold move to the previous queue item, otherwise restart the current
item by seeking to 0.  `get_current_progress()` is modelled at microsecond
granularity; `Duration::from_secs(5)` is 5000000 microseconds. -/
def method_previous (w : World) : World :=
  if w.progressMicros < 5000000 then
    w.queuePrevious
  else
    w.engineSeek 0

/-- `method_seek` (mpris.rs lines 518-539).  The offset argument is the
dbus `i64` in microseconds (`unwrap_or(0)` when absent); the new position is
computed in 32-bit signed arithmetic exactly as in the source:
`(progress.as_secs() * 1000) as i32 + progress.subsec_millis() as i32 +
(offset / 1000) as i32`, with the i32 additions wrapping (release-mode
semantics), then clamped below at 0 by `.max(0)` and cast to `u32`. -/
def method_seek (w : World) (offsetMicros : Option Int) : World :=
  match w.get_current with
  | some current_track =>
    let offset := offsetMicros.getD 0
    let secs : Nat := w.progressMicros / 1000000
    let subsecMillis : Nat := w.progressMicros % 1000000 / 1000
    let new_position : Int :=
      castI32 (castI32 (secs * 1000) + (subsecMillis : Int) + castI32 (Int.tdiv offset 1000))
    let new_position : Nat := (max new_position 0).toNat
    let duration := current_track.duration
    if new_position < duration then
      w.engineSeek new_position
    else
      w.queueNext true
  | none => w

/-- `method_set_position` (mpris.rs lines 541-556).  The position argument
is the dbus `i64` in microseconds (`unwrap_or(0)` when absent); the source
computes `(position / 1000) as u32` — a truncating division followed by a
wrapping unsigned cast — and seeks only when the result is strictly below
the current item's duration. -/
def method_set_position (w : World) (positionMicros : Option Int) : World :=
  match w.get_current with
  | some current_track =>
    let position : Nat := castU32 (Int.tdiv (positionMicros.getD 0) 1000)
    if position < current_track.duration then
      w.engineSeek position
    else
      w
  | none => w

/-- The `LoopStatus` getter (mpris.rs lines 268-278). -/
def property_loopstatus_get (w : World) : String :=
  match w.repeatSetting with
  | RepeatSetting.None => "None"
  | RepeatSetting.RepeatTrack => "Track"
  | RepeatSetting.RepeatPlaylist => "Playlist"

/-- The `LoopStatus` setter (mpris.rs lines 279-288): the inbound token
(`unwrap_or_default()` when absent) maps "Track" and "Playlist" to the
corresponding repeat settings and everything else to `None`. -/
def property_loopstatus_set (w : World) (s : Option String) : World :=
  let tok := s.getD ""
  let setting :=
    if tok = "Track" then RepeatSetting.RepeatTrack
    else if tok = "Playlist" then RepeatSetting.RepeatPlaylist
    else RepeatSetting.None
  { w with repeatSetting := setting }

/-- Modelled from the spec: the VOLUME_PERCENT constant of the engine
module (one percent of the u16 volume scale, 65535 / 100 truncated). -/
def VOLUME_PERCENT : Nat := 655

/-- The Rust `as u16` cast of a non-negative float, modelled on rationals:
truncation toward zero with saturation at the u16 range. -/
def ratToU16 (q : ℚ) : Nat :=
  if q ≤ 0 then 0 else min q.floor.toNat 65535

/-- The `Volume` setter (mpris.rs lines 330-339).  The requested value
defaults to the current normalized volume when the argument is absent; a
request inside [0.0, 1.0] stores `VOLUME_PERCENT as f64 * req * 100.0` as
u16, anything else is ignored; `event.trigger()` runs unconditionally.
The f64 arithmetic is modelled on rationals. -/
def property_volume_set (w : World) (req : Option ℚ) : World :=
  let cur : ℚ := (w.volume : ℚ) / 65535
  let r := req.getD cur
  let w1 :=
    if 0 ≤ r ∧ r ≤ 1 then
      w.engineSetVolume (ratToU16 ((VOLUME_PERCENT : ℚ) * r * 100))
    else
      w
  w1.eventTrigger

/-- The external metadata dictionary (mpris.rs lines 61-161): a fixed set of
well-known keys, represented as one structure field per key.  The two float
valued keys are modelled on rationals. -/
structure MetadataMap where
  mpris_trackid : String
  mpris_length : Int
  mpris_artUrl : String
  xesam_album : String
  xesam_albumArtist : List String
  xesam_artist : List String
  xesam_discNumber : Int
  xesam_title : String
  xesam_trackNumber : Int
  xesam_url : String
  xesam_userRating : ℚ
deriving DecidableEq, Repr

/-- `uri().replace(':', "/")` as used for the mpris:trackid key. -/
def replaceColons (s : String) : String :=
  String.mk (s.data.map (fun c => if c = ':' then '/' else c))

/-- `get_metadata` (mpris.rs lines 39-164).  `apiTrack` is the catalog
fetch `spotify.api.track` and `isSavedTrack` the saved-items lookup
`library.is_saved_track`, both external collaborators passed as functions.
A `Track` playable without cover art is replaced by the catalog record for
its id (`and_then` over the fetch result); every key is then emitted from
the resulting optional playable with the documented defaults. -/
def get_metadata (playable : Option Playable) (apiTrack : String → Option Track)
    (isSavedTrack : Playable → Bool) : MetadataMap :=
  let playable_full := playable.bind (fun p =>
    match p with
    | Playable.Track track =>
      if track.cover_url.isSome then
        some (Playable.Track track)
      else
        (apiTrack (track.id.getD "")).map Playable.Track
    | Playable.Episode episode => some (Playable.Episode episode))
  let p := playable_full
  { mpris_trackid := "/org/ncspot/" ++
      ((p.filter (fun t => t.id.isSome)).map (fun t => replaceColons t.uri)).getD "0"
  , mpris_length := (p.map (fun t => (t.duration : Int) * 1000)).getD 0
  , mpris_artUrl := (p.map (fun t => t.cover_url.getD "")).getD ""
  , xesam_album := ((p.bind Playable.track).map (fun t => t.album.getD "")).getD ""
  , xesam_albumArtist := ((p.bind Playable.track).map (fun t => t.album_artists)).getD []
  , xesam_artist := ((p.bind Playable.track).map (fun t => t.artists)).getD []
  , xesam_discNumber := ((p.bind Playable.track).map (fun t => t.disc_number)).getD 0
  , xesam_title := (p.map (fun t =>
      match t with
      | Playable.Track t2 => t2.title
      | Playable.Episode ep => ep.name)).getD ""
  , xesam_trackNumber := ((p.bind Playable.track).map (fun t => (t.track_number : Int))).getD 0
  , xesam_url := (p.map (fun t => t.share_url.getD "")).getD ""
  , xesam_userRating := ((p.bind Playable.track).map (fun t =>
      if isSavedTrack (Playable.Track t) then (1 : ℚ) else 0)).getD 0 }

/-- Strips a literal character sequence from the front of a string,
returning the remainder on success. -/
def stripLit : List Char → List Char → Option (List Char)
  | [], s => some s
  | _ :: _, [] => none
  | l :: ls, c :: cs => if l = c then stripLit ls cs else none

/-- First successful result of `f` over a list, in order. -/
def firstSome {α β : Type} (f : α → Option β) : List α → Option β
  | [] => none
  | a :: as =>
    match f a with
    | some b => some b
    | none => firstSome f as

/-- Rust `str::contains` with a literal pattern: substring search. -/
def containsSubstring (s pat : String) : Bool :=
  (List.range (s.data.length + 1)).any (fun i => pat.data.isPrefixOf (s.data.drop i))

/-- The regex character class `\S` (non-whitespace). -/
def isNonSpace (c : Char) : Bool := !c.isWhitespace

/-- The five kind alternatives of the link regex, in alternation order. -/
def kindAlternatives : List (List Char) :=
  ["album".data, "track".data, "playlist".data, "show".data, "episode".data]

/-- Matches `/(album|track|playlist|show|episode)/(.+)(\x3fsi=\S+)?` at the
head of `r`: a slash, one of the kinds, a slash, then at least one
non-newline character.  The greedy `(.+)` captures the whole remaining line
(the optional query group then matches empty), so the returned id capture is
everything up to the end of line. -/
def tryKindPart (r : List Char) : Option (String × String) :=
  firstSome (fun kind =>
    match stripLit ('/' :: (kind ++ ['/'])) r with
    | none => none
    | some rest =>
      let cap := rest.takeWhile (fun c => c ≠ '\n')
      if cap.isEmpty then none else some (String.mk kind, String.mk cap))
    kindAlternatives

/-- Matches the optional `(/user/\S+)?` group followed by the kind part,
with the group present: `\S+` is greedy, so the longest non-space run that
still lets the rest of the pattern match wins. -/
def tryUserPart (r : List Char) : Option (String × String) :=
  match stripLit "/user/".data r with
  | none => none
  | some rest =>
    let n := (rest.takeWhile isNonSpace).length
    firstSome (fun k => tryKindPart (rest.drop k))
      ((List.range n).reverse.map (fun k => k + 1))

/-- Matches the link regex from the `://open.spotify.com` part onward. -/
def matchAfterScheme (r : List Char) : Option (String × String) :=
  match stripLit "://open.spotify.com".data r with
  | none => none
  | some rest =>
    match tryUserPart rest with
    | some res => some res
    | none => tryKindPart rest

/-- Matches the full link regex at one start position: `http`, a greedy
optional `s`, then the rest of the pattern. -/
def matchAt (r : List Char) : Option (String × String) :=
  match stripLit "http".data r with
  | none => none
  | some r1 =>
    let withS :=
      match stripLit "s".data r1 with
      | some r2 => matchAfterScheme r2
      | none => none
    match withS with
    | some res => some res
    | none => matchAfterScheme r1

/-- `Regex::captures` for the pattern of mpris.rs line 565, with the
crate's leftmost-first search: the kind and id captures of the match at the
first start position where the pattern matches, if any. -/
def regexCaptures (s : String) : Option (String × String) :=
  firstSome (fun i => matchAt (s.data.drop i)) (List.range (s.data.length + 1))

/-- The URI-building phase of `method_openuri` (mpris.rs lines 561-576).
A link containing the catalog domain is rewritten through the regex; the
source unwraps the capture result, so a domain-containing string the regex
does not match panics — modelled as `Except.error`.  A missing argument
becomes the empty string. -/
def openuri_resolve : Option String → Except String String
  | some s =>
    if containsSubstring s "open.spotify.com" then
      match regexCaptures s with
      | some (uriType, id) => Except.ok ("spotify:" ++ uriType ++ ":" ++ id)
      | none => Except.error "called Option unwrap on a None value"
    else
      Except.ok s
  | none => Except.ok ""

/-- Index of the last colon in a character list, if any (Rust `rfind`). -/
def lastColonIdx (cs : List Char) : Option Nat :=
  (cs.reverse.findIdx? (fun c => c = ':')).map (fun r => cs.length - 1 - r)

/-- The id extraction of `method_openuri` (mpris.rs line 577):
`uri[rfind-colon-plus-one .. len]`.  When the uri has no colon the start
index is 1, so the empty uri makes the slice bounds invalid and the source
panics — modelled as `Except.error`. -/
def openuri_extract_id (uri : String) : Except String String :=
  let cs := uri.data
  let start := ((lastColonIdx cs).map (fun i => i + 1)).getD 1
  if start ≤ cs.length then
    Except.ok (String.mk (cs.drop start))
  else
    Except.error "slice index starts at 1 but ends at 0"

/-- Modelled from the spec: `UriType::from_uri` (spotify.rs, outside this
module) recognizes canonical `scheme:kind:id` strings for the six content
kinds. -/
def UriType.fromUri (s : String) : Option UriType :=
  if "spotify:album:".isPrefixOf s then some UriType.Album
  else if "spotify:track:".isPrefixOf s then some UriType.Track
  else if "spotify:playlist:".isPrefixOf s then some UriType.Playlist
  else if "spotify:show:".isPrefixOf s then some UriType.Show
  else if "spotify:episode:".isPrefixOf s then some UriType.Episode
  else if "spotify:artist:".isPrefixOf s then some UriType.Artist
  else none

/-- Modelled from the spec: the catalog fetches used by `method_openuri`,
with the constituent-list loading collapsed into the fetch result (the
outer option is the fetch, the inner option the loaded track or episode
list of the album, playlist or show). -/
structure SpotifyApi where
  album : String → Option (Option (List Track))
  track : String → Option Track
  playlist : String → Option (Option (List Playable))
  getShow : String → Option (Option (List Episode))
  episode : String → Option Episode
  artistTopTracks : String → Option (List Track)

/-- The dispatch phase of `method_openuri` (mpris.rs lines 579-649), one
branch per resolved kind.  Album, playlist, show and artist read the
pre-operation shuffle flag, clear, `append_next` the expanded sequence
(episodes reversed for shows) and `play(index, shuffle, shuffle)`; track
and episode clear, `append` the single item and `play(0, false, false)`;
with no resolved kind nothing happens. -/
def openuri_match (w : World) (api : SpotifyApi) (uriType : Option UriType)
    (id : String) : World :=
  match uriType with
  | some UriType.Album =>
    match api.album id with
    | none => w
    | some tracksOpt =>
      match tracksOpt with
      | none => w
      | some t =>
        let should_shuffle := w.shuffle
        let w1 := w.queueClear
        let wi := w1.queueAppendNext (t.map Playable.Track)
        wi.1.queuePlay wi.2 should_shuffle should_shuffle
  | some UriType.Track =>
    match api.track id with
    | none => w
    | some t =>
      let w1 := w.queueClear
      let w2 := w1.queueAppend (Playable.Track t)
      w2.queuePlay 0 false false
  | some UriType.Playlist =>
    match api.playlist id with
    | none => w
    | some tracksOpt =>
      match tracksOpt with
      | none => w
      | some tracks =>
        let should_shuffle := w.shuffle
        let w1 := w.queueClear
        let wi := w1.queueAppendNext tracks
        wi.1.queuePlay wi.2 should_shuffle should_shuffle
  | some UriType.Show =>
    match api.getShow id with
    | none => w
    | some episodesOpt =>
      match episodesOpt with
      | none => w
      | some e =>
        let should_shuffle := w.shuffle
        let w1 := w.queueClear
        let ep := e.reverse
        let wi := w1.queueAppendNext (ep.map Playable.Episode)
        wi.1.queuePlay wi.2 should_shuffle should_shuffle
  | some UriType.Episode =>
    match api.episode id with
    | none => w
    | some e =>
      let w1 := w.queueClear
      let w2 := w1.queueAppend (Playable.Episode e)
      w2.queuePlay 0 false false
  | some UriType.Artist =>
    match api.artistTopTracks id with
    | none => w
    | some a =>
      let should_shuffle := w.shuffle
      let w1 := w.queueClear
      let wi := w1.queueAppendNext (a.map Playable.Track)
      wi.1.queuePlay wi.2 should_shuffle should_shuffle
  | none => w

/-- `method_openuri` (mpris.rs lines 558-652) end to end: build the uri,
extract the id, dispatch on the kind.  The two panic sites of the source
surface as `Except.error`; every non-panicking path returns protocol
success with the dispatched world. -/
def method_openuri (w : World) (api : SpotifyApi) (uri_data : Option String) :
    Except String World :=
  match openuri_resolve uri_data with
  | Except.error msg => Except.error msg
  | Except.ok uri =>
    match openuri_extract_id uri with
    | Except.error msg => Except.error msg
    | Except.ok id => Except.ok (openuri_match w api (UriType.fromUri uri) id)

/-- A concrete track used by the concrete instances below. -/
def trackA : Track :=
  { id := some "aaa", title := "Song", album := some "Alb"
  , album_artists := ["Art"], artists := ["Art"], disc_number := 1
  , track_number := 2, duration := 180000, cover_url := some "cover"
  , url := some "share" }

/-- A concrete world with one current track, three minutes long, with the
engine seven seconds into it. -/
def worldA : World :=
  { queue := [Playable.Track trackA], current := some 0, shuffle := false
  , repeatSetting := RepeatSetting.None, progressMicros := 7000000
  , volume := 1000, trace := [] }

/-- A catalog whose every fetch yields nothing. -/
def apiEmpty : SpotifyApi :=
  { album := fun _ => none, track := fun _ => none, playlist := fun _ => none
  , getShow := fun _ => none, episode := fun _ => none
  , artistTopTracks := fun _ => none }

/-- C1: the claim says every malformed OpenUri input — a link containing
the catalog domain that does not fully match the pattern, or a missing
argument — is a no-op returning protocol success.  The code instead
panics on both: `regex.captures(s).unwrap()` on a domain-containing
non-matching link, and the `uri[1..0]` slice on a missing argument. -/
theorem method_openuri_malformed_panics :
    method_openuri worldA apiEmpty (some "https://open.spotify.com/artist/abc")
      = Except.error "called Option unwrap on a None value" ∧
    method_openuri worldA apiEmpty none
      = Except.error "slice index starts at 1 but ends at 0" :=
  ⟨rfl, rfl⟩

/-- C3 counterexample: the claim says a negative SetPosition target is
clamped up to 0 by the unsigned conversion, so the seek would apply (and
move the engine to 0) whenever the clamped target is below the duration.
At target -5000000 microseconds the clamped millisecond target 0 is below
the 180000 ms duration, yet the handler changes nothing: the `as u32`
conversion wraps -5000 to 4294962296, which is not below the duration. -/
theorem method_set_position_negative_not_clamped :
    method_set_position worldA (some (-5000000)) = worldA ∧
    (Int.tdiv (-5000000) 1000).toNat < (Playable.Track trackA).duration ∧
    castU32 (Int.tdiv (-5000000) 1000) = 4294962296 :=
  ⟨by decide, by decide, by decide⟩

/-- C3 amended: while a current item exists, SetPosition converts the
microsecond target to milliseconds by truncating division followed by a
wrapping (modulo two to the 32) unsigned conversion — not a clamp — and
seeks exactly when that value is strictly below the current item's
duration; otherwise the world is unchanged, and the handler never advances
the queue. -/
theorem method_set_position_wrapping (w : World) (ct : Playable) (p : Int)
    (hc : w.get_current = some ct) :
    (castU32 (Int.tdiv p 1000) < ct.duration →
      method_set_position w (some p) = w.engineSeek (castU32 (Int.tdiv p 1000))) ∧
    (ct.duration ≤ castU32 (Int.tdiv p 1000) →
      method_set_position w (some p) = w) := by
  unfold method_set_position
  rw [hc]
  constructor
  · intro h
    simp [h]
  · intro h
    simp [Nat.not_lt.mpr h]

/-- C3 amended, witness: with the three-minute track current and target
-5000000 microseconds the wrapped value 4294962296 is not below the
duration, so the world is unchanged. -/
theorem method_set_position_wrapping_witness :
    worldA.get_current = some (Playable.Track trackA) ∧
    method_set_position worldA (some (-5000000)) = worldA :=
  ⟨by decide, (method_set_position_wrapping worldA (Playable.Track trackA)
      (-5000000) (by decide)).2 (by decide)⟩

/-- C4: Previous moves to the previous queue item exactly when the elapsed
position is strictly below 5000 milliseconds, and otherwise restarts the
current item by seeking to absolute position 0, leaving the current queue
index unchanged. -/
theorem method_previous_threshold (w : World) :
    (w.progressMicros / 1000 < 5000 →
      (method_previous w).trace = w.trace ++ [Call.queuePrevious] ∧
      method_previous w = w.queuePrevious) ∧
    (5000 ≤ w.progressMicros / 1000 →
      (method_previous w).trace = w.trace ++ [Call.engineSeek 0] ∧
      (method_previous w).progressMicros = 0 ∧
      (method_previous w).current = w.current) := by
  have hiff : w.progressMicros / 1000 < 5000 ↔ w.progressMicros < 5000000 :=
    Nat.div_lt_iff_lt_mul (by norm_num)
  constructor
  · intro h
    have h5 : w.progressMicros < 5000000 := by
      have := hiff.mp h
      omega
    simp [method_previous, h5, World.queuePrevious]
  · intro h
    have h5 : ¬ w.progressMicros < 5000000 := by
      intro hlt
      have : w.progressMicros / 1000 < 5000 := hiff.mpr (by omega)
      omega
    simp [method_previous, h5, World.engineSeek]

/-- C4 witness: at 4999 ms elapsed Previous moves to the previous item; at
5000 ms elapsed it restarts the current item at position 0. -/
theorem method_previous_threshold_witness :
    ((method_previous { worldA with progressMicros := 4999000 }).trace
        = [Call.queuePrevious] ∧
      method_previous { worldA with progressMicros := 4999000 }
        = { worldA with progressMicros := 4999000 }.queuePrevious) ∧
    ((method_previous { worldA with progressMicros := 5000000 }).trace
        = [Call.engineSeek 0] ∧
      (method_previous { worldA with progressMicros := 5000000 }).progressMicros = 0 ∧
      (method_previous { worldA with progressMicros := 5000000 }).current
        = { worldA with progressMicros := 5000000 }.current) :=
  ⟨(method_previous_threshold { worldA with progressMicros := 4999000 }).1 (by decide),
   (method_previous_threshold { worldA with progressMicros := 5000000 }).2 (by decide)⟩

/-- C10: with no current queue item both Seek and SetPosition leave the
world — queue, current index, engine position and trace — entirely
unchanged, for every offset and target argument. -/
theorem seek_and_set_position_noop_without_current (w : World)
    (off pos : Option Int) (h : w.get_current = none) :
    method_seek w off = w ∧ method_set_position w pos = w := by
  unfold method_seek method_set_position
  rw [h]
  exact ⟨rfl, rfl⟩

/-- C10 witness: an empty queue with a large forward offset and a negative
target. -/
theorem seek_and_set_position_noop_without_current_witness :
    method_seek { worldA with queue := [], current := none } (some 123456789)
      = { worldA with queue := [], current := none } ∧
    method_set_position { worldA with queue := [], current := none } (some (-77))
      = { worldA with queue := [], current := none } :=
  seek_and_set_position_noop_without_current
    { worldA with queue := [], current := none } (some 123456789) (some (-77))
    (by decide)

/-- The concrete counterexample track for the metadata claim: the same
record as `trackA` but with no cover art. -/
def trackNoCover : Track := { trackA with cover_url := none }

/-- C2 counterexample: the claim says that when the cover-art re-fetch
returns nothing the original cover-less record is used unchanged, so the
title is still emitted from it.  With a catalog returning nothing the
emitted title (and album) are the empty-string defaults, not the original
record's values: the `and_then` over the failed fetch drops the playable
entirely. -/
theorem get_metadata_fetch_none_drops_record :
    (get_metadata (some (Playable.Track trackNoCover)) (fun _ => none)
        (fun _ => false)).xesam_title = "" ∧
    trackNoCover.title = "Song" ∧
    (get_metadata (some (Playable.Track trackNoCover)) (fun _ => none)
        (fun _ => false)).xesam_album = "" ∧
    trackNoCover.album = some "Alb" :=
  ⟨rfl, rfl, rfl, rfl⟩

/-- C2 amended: a Track missing cover art is re-fetched from the catalog by
id, but when that fetch returns nothing the playable is dropped entirely
and every metadata key is emitted with its documented default — exactly the
dictionary produced for an absent current item — rather than from the
original record. -/
theorem get_metadata_fetch_none_defaults (t : Track)
    (apiTrack : String → Option Track) (isSavedTrack : Playable → Bool)
    (hc : t.cover_url = none) (ha : apiTrack (t.id.getD "") = none) :
    get_metadata (some (Playable.Track t)) apiTrack isSavedTrack
      = get_metadata none apiTrack isSavedTrack := by
  simp [get_metadata, hc, ha]

/-- C2 amended, witness: the cover-less track against the empty catalog
produces the all-defaults dictionary. -/
theorem get_metadata_fetch_none_defaults_witness :
    trackNoCover.cover_url = none ∧
    get_metadata (some (Playable.Track trackNoCover)) (fun _ => none)
        (fun _ => false)
      = get_metadata none (fun _ => none) (fun _ => false) :=
  ⟨rfl, get_metadata_fetch_none_defaults trackNoCover (fun _ => none)
      (fun _ => false) rfl rfl⟩

/-- The Volume setter always ends with the UI refresh call. -/
theorem property_volume_set_trace_ends_trigger (w : World) (ro : Option ℚ) :
    ((property_volume_set w ro).trace).getLast? = some Call.eventTrigger := by
  simp only [property_volume_set]
  simp [World.eventTrigger, List.getLast?_concat]

/-- C6: a Volume set request outside [0.0, 1.0] leaves the engine's stored
volume unchanged — no clamped store happens, the trace gains only the UI
refresh — and every set request, in range or not, ends with the UI refresh
notification. -/
theorem property_volume_set_out_of_range (w : World) (q : ℚ)
    (h : q < 0 ∨ 1 < q) :
    (property_volume_set w (some q)).volume = w.volume ∧
    (property_volume_set w (some q)).trace = w.trace ++ [Call.eventTrigger] ∧
    ∀ ro : Option ℚ,
      ((property_volume_set w ro).trace).getLast? = some Call.eventTrigger := by
  have hcond : ¬ (0 ≤ q ∧ q ≤ 1) := by
    rcases h with h | h
    · rintro ⟨h1, _⟩
      linarith
    · rintro ⟨_, h2⟩
      linarith
  refine ⟨?_, ?_, fun ro => property_volume_set_trace_ends_trigger w ro⟩
  · simp [property_volume_set, hcond, World.eventTrigger]
  · simp [property_volume_set, hcond, World.eventTrigger]

/-- C6 witness: a request of 1.5 is out of range, leaves the stored volume
at its prior value and still appends the UI refresh. -/
theorem property_volume_set_out_of_range_witness :
    (1 : ℚ) < 3 / 2 ∧
    (property_volume_set worldA (some (3 / 2))).volume = worldA.volume ∧
    (property_volume_set worldA (some (3 / 2))).trace
      = worldA.trace ++ [Call.eventTrigger] :=
  ⟨by norm_num,
   (property_volume_set_out_of_range worldA (3 / 2) (Or.inr (by norm_num))).1,
   (property_volume_set_out_of_range worldA (3 / 2) (Or.inr (by norm_num))).2.1⟩

/-- C9: setting LoopStatus to "Track", "Playlist" or "None" and reading it
back returns the same token, and setting any unrecognized token reads back
as "None". -/
theorem loopstatus_roundtrip (w : World) (s : String)
    (h1 : s ≠ "Track") (h2 : s ≠ "Playlist") :
    property_loopstatus_get (property_loopstatus_set w (some "Track")) = "Track" ∧
    property_loopstatus_get (property_loopstatus_set w (some "Playlist")) = "Playlist" ∧
    property_loopstatus_get (property_loopstatus_set w (some "None")) = "None" ∧
    property_loopstatus_get (property_loopstatus_set w (some s)) = "None" := by
  refine ⟨rfl, rfl, rfl, ?_⟩
  simp [property_loopstatus_set, property_loopstatus_get, h1, h2]

/-- C9 witness: the unrecognized token "Shuffle" reads back as "None",
alongside the three recognized round trips. -/
theorem loopstatus_roundtrip_witness :
    property_loopstatus_get (property_loopstatus_set worldA (some "Track")) = "Track" ∧
    property_loopstatus_get (property_loopstatus_set worldA (some "Playlist")) = "Playlist" ∧
    property_loopstatus_get (property_loopstatus_set worldA (some "None")) = "None" ∧
    property_loopstatus_get (property_loopstatus_set worldA (some "Shuffle")) = "None" :=
  loopstatus_roundtrip worldA "Shuffle" (by decide) (by decide)

/-- The `as i32` cast is the identity on values already in the i32 range. -/
theorem castI32_of_bounds (n : Int) (h1 : -(2 ^ 31) ≤ n) (h2 : n < 2 ^ 31) :
    castI32 n = n := by
  simp only [castI32]
  split <;> omega

/-- C5 counterexample: the claim says the new absolute position equals
current ms plus offset ms clamped below at 0, with an out-of-range forward
result advancing to the next item.  With the engine at position 0 and
offset 2147483648000 microseconds the claimed position, 2147483648 ms, is
far beyond the 180000 ms duration, so the claim requires a forced advance;
the code instead wraps `(offset / 1000) as i32` to -2147483648, clamps to 0
and seeks to 0. -/
theorem method_seek_overflow_counterexample :
    (method_seek { worldA with progressMicros := 0 } (some 2147483648000)).trace
      = [Call.engineSeek 0] ∧
    ((Playable.Track trackA).duration : Int)
      ≤ ({ worldA with progressMicros := 0 }.progressMicros / 1000 : Nat)
        + Int.tdiv 2147483648000 1000 :=
  ⟨by decide, by decide⟩

/-- C5 amended: while a current item exists and neither the millisecond
conversion of the offset nor the resulting sum overflows the i32 range (the
source computes them in wrapping 32-bit arithmetic), Seek behaves as the
claim states: the new position is current ms plus offset ms clamped below
at 0; a result below the duration is seeked to, any other result
force-advances the queue to the next item. -/
theorem method_seek_no_overflow (w : World) (ct : Playable) (off : Int)
    (hc : w.get_current = some ct)
    (hp : w.progressMicros / 1000 < 2 ^ 31)
    (ho1 : -(2 ^ 31) ≤ Int.tdiv off 1000) (ho2 : Int.tdiv off 1000 < 2 ^ 31)
    (hs1 : -(2 ^ 31) ≤ ((w.progressMicros / 1000 : Nat) : Int) + Int.tdiv off 1000)
    (hs2 : ((w.progressMicros / 1000 : Nat) : Int) + Int.tdiv off 1000 < 2 ^ 31) :
    ((max (((w.progressMicros / 1000 : Nat) : Int) + Int.tdiv off 1000) 0).toNat
        < ct.duration →
      method_seek w (some off)
        = w.engineSeek
            (max (((w.progressMicros / 1000 : Nat) : Int) + Int.tdiv off 1000) 0).toNat) ∧
    (ct.duration
        ≤ (max (((w.progressMicros / 1000 : Nat) : Int) + Int.tdiv off 1000) 0).toNat →
      method_seek w (some off) = w.queueNext true) := by
  have e2 : castI32 (Int.tdiv off 1000) = Int.tdiv off 1000 :=
    castI32_of_bounds _ ho1 ho2
  have e1 : castI32 (((w.progressMicros / 1000000 : Nat) : Int) * 1000)
      = ((w.progressMicros / 1000000 : Nat) : Int) * 1000 := by
    refine castI32_of_bounds _ (by push_cast; omega) ?_
    have hle : w.progressMicros / 1000000 * 1000 ≤ w.progressMicros / 1000 := by omega
    push_cast
    omega
  have hS : ((w.progressMicros / 1000000 : Nat) : Int) * 1000
        + ((w.progressMicros % 1000000 / 1000 : Nat) : Int) + Int.tdiv off 1000
      = ((w.progressMicros / 1000 : Nat) : Int) + Int.tdiv off 1000 := by
    have hd : w.progressMicros / 1000000 * 1000 + w.progressMicros % 1000000 / 1000
        = w.progressMicros / 1000 := by omega
    push_cast
    omega
  have e3 : castI32 (((w.progressMicros / 1000 : Nat) : Int) + Int.tdiv off 1000)
      = ((w.progressMicros / 1000 : Nat) : Int) + Int.tdiv off 1000 :=
    castI32_of_bounds _ hs1 hs2
  constructor
  · intro h
    unfold method_seek
    rw [hc]
    simp only [Option.getD_some, e1, e2, hS, e3]
    rw [if_pos h]
  · intro h
    unfold method_seek
    rw [hc]
    simp only [Option.getD_some, e1, e2, hS, e3]
    rw [if_neg (Nat.not_lt.mpr h)]

/-- C5 amended, witness: seven seconds into the three-minute track, a
rewind of three seconds seeks to the 4000 ms absolute position. -/
theorem method_seek_no_overflow_witness :
    method_seek worldA (some (-3000000)) = worldA.engineSeek 4000 := by
  have h := (method_seek_no_overflow worldA (Playable.Track trackA) (-3000000)
    (by decide) (by decide) (by decide) (by decide) (by decide) (by decide)).1
    (by decide)
  have hv : (max (((worldA.progressMicros / 1000 : Nat) : Int)
      + Int.tdiv (-3000000) 1000) 0).toNat = 4000 := by decide
  rw [hv] at h
  exact h

/-- `worldA` with shuffle enabled before the OpenUri call. -/
def worldShuffle : World := { worldA with shuffle := true }

/-- A catalog that resolves only single tracks. -/
def apiTrackOnly : SpotifyApi := { apiEmpty with track := fun _ => some trackA }

/-- C7 counterexample: the claim says every kind whose fetch yields content
passes the pre-operation shuffle flag as both shuffle arguments of the play
call.  With shuffle on, resolving a single Track clears, appends and calls
`play(0, false, false)` — the shuffle flag is hardcoded to false, not
replayed. -/
theorem openuri_track_ignores_shuffle :
    worldShuffle.shuffle = true ∧
    (openuri_match worldShuffle apiTrackOnly (some UriType.Track) "aaa").trace
      = [Call.queueClear, Call.queueAppend (Playable.Track trackA),
         Call.queuePlay 0 false false] :=
  ⟨rfl, rfl⟩

/-- C7 amended: when the fetch yields content, the Album, Playlist, Show
and Artist branches clear the queue, insert the expanded sequence to play
next and start playback at the first inserted index with the pre-operation
shuffle flag passed symmetrically as both shuffle arguments; the Track and
Episode branches instead clear, append the single item and call
`play(0, false, false)`, ignoring the pre-operation shuffle flag. -/
theorem openuri_content_enqueue (w : World) (api : SpotifyApi) (id : String)
    (ts : List Track) (pls : List Playable) (es : List Episode)
    (t : Track) (e : Episode) (tops : List Track)
    (ha : api.album id = some (some ts))
    (hp : api.playlist id = some (some pls))
    (hs : api.getShow id = some (some es))
    (ht : api.track id = some t)
    (he : api.episode id = some e)
    (har : api.artistTopTracks id = some tops) :
    (openuri_match w api (some UriType.Album) id).trace
      = w.trace ++ [Call.queueClear, Call.queueAppendNext (ts.map Playable.Track),
          Call.queuePlay 0 w.shuffle w.shuffle] ∧
    (openuri_match w api (some UriType.Playlist) id).trace
      = w.trace ++ [Call.queueClear, Call.queueAppendNext pls,
          Call.queuePlay 0 w.shuffle w.shuffle] ∧
    (openuri_match w api (some UriType.Show) id).trace
      = w.trace ++ [Call.queueClear, Call.queueAppendNext (es.reverse.map Playable.Episode),
          Call.queuePlay 0 w.shuffle w.shuffle] ∧
    (openuri_match w api (some UriType.Artist) id).trace
      = w.trace ++ [Call.queueClear, Call.queueAppendNext (tops.map Playable.Track),
          Call.queuePlay 0 w.shuffle w.shuffle] ∧
    (openuri_match w api (some UriType.Track) id).trace
      = w.trace ++ [Call.queueClear, Call.queueAppend (Playable.Track t),
          Call.queuePlay 0 false false] ∧
    (openuri_match w api (some UriType.Episode) id).trace
      = w.trace ++ [Call.queueClear, Call.queueAppend (Playable.Episode e),
          Call.queuePlay 0 false false] := by
  refine ⟨?_, ?_, ?_, ?_, ?_, ?_⟩ <;>
    simp [openuri_match, ha, hp, hs, ht, he, har, World.queueClear,
      World.queueAppendNext, World.queueAppend, World.queuePlay]

/-- A one-episode show record for the concrete instances. -/
def episodeA : Episode :=
  { id := some "e1", name := "Ep1", duration := 1000, cover_url := none, url := none }

/-- A catalog where every fetch yields one-element content. -/
def apiFull : SpotifyApi :=
  { album := fun _ => some (some [trackA])
  , track := fun _ => some trackA
  , playlist := fun _ => some (some [Playable.Track trackA])
  , getShow := fun _ => some (some [episodeA])
  , episode := fun _ => some episodeA
  , artistTopTracks := fun _ => some [trackA] }

/-- C7 amended, witness: the six branches against the one-element catalog,
with shuffle on beforehand. -/
theorem openuri_content_enqueue_witness :
    (openuri_match worldShuffle apiFull (some UriType.Album) "aaa").trace
      = [Call.queueClear, Call.queueAppendNext [Playable.Track trackA],
         Call.queuePlay 0 true true] ∧
    (openuri_match worldShuffle apiFull (some UriType.Playlist) "aaa").trace
      = [Call.queueClear, Call.queueAppendNext [Playable.Track trackA],
         Call.queuePlay 0 true true] ∧
    (openuri_match worldShuffle apiFull (some UriType.Show) "aaa").trace
      = [Call.queueClear, Call.queueAppendNext [Playable.Episode episodeA],
         Call.queuePlay 0 true true] ∧
    (openuri_match worldShuffle apiFull (some UriType.Artist) "aaa").trace
      = [Call.queueClear, Call.queueAppendNext [Playable.Track trackA],
         Call.queuePlay 0 true true] ∧
    (openuri_match worldShuffle apiFull (some UriType.Track) "aaa").trace
      = [Call.queueClear, Call.queueAppend (Playable.Track trackA),
         Call.queuePlay 0 false false] ∧
    (openuri_match worldShuffle apiFull (some UriType.Episode) "aaa").trace
      = [Call.queueClear, Call.queueAppend (Playable.Episode episodeA),
         Call.queuePlay 0 false false] :=
  openuri_content_enqueue worldShuffle apiFull "aaa" [trackA]
    [Playable.Track trackA] [episodeA] trackA episodeA [trackA]
    rfl rfl rfl rfl rfl rfl

/-- C8: an OpenUri resolution whose catalog fetch yields nothing — the
fetch itself returns nothing, or the fetched album, playlist or show has no
constituent list after loading — leaves the world entirely unchanged: no
clear, no insert, no playback change, no call at all. -/
theorem openuri_empty_fetch_noop (w : World) (api : SpotifyApi)
    (ut : Option UriType) (id : String)
    (h : match ut with
      | some UriType.Album => api.album id = none ∨ api.album id = some none
      | some UriType.Track => api.track id = none
      | some UriType.Playlist => api.playlist id = none ∨ api.playlist id = some none
      | some UriType.Show => api.getShow id = none ∨ api.getShow id = some none
      | some UriType.Episode => api.episode id = none
      | some UriType.Artist => api.artistTopTracks id = none
      | none => True) :
    openuri_match w api ut id = w := by
  cases ut with
  | none => rfl
  | some k =>
    cases k <;> simp only [openuri_match] <;>
      first
        | (rcases h with h | h <;> rw [h])
        | rw [h]

/-- C8 witness: a playlist id the catalog cannot resolve leaves the world
unchanged. -/
theorem openuri_empty_fetch_noop_witness :
    openuri_match worldA apiEmpty (some UriType.Playlist) "pl" = worldA :=
  openuri_empty_fetch_noop worldA apiEmpty (some UriType.Playlist) "pl" (Or.inl rfl)
